import Mathlib

/-!
Shallow embedding of the two-stage retrieval engine, the ingestion
load-and-convert step, and the conversational entry points of the
product-RAG repository (`vector_pipeline` and `langgraph_app` packages),
together with proofs of the specification claims about them.

External collaborators (the Chroma chunk store, the cross-encoder
reranker, the HF language model) are modelled at their boundary:
a store is a list of documents with a similarity scoring function, a
reranker is a scoring function, an LLM is a text-to-text function.
Effectful calls (vector search, reranker acquisition and scoring,
LLM invocation) are recorded in an explicit event trace so that claims
about which collaborator is touched are statable.
-/

namespace Rag

/-- A metadata / dataframe cell value: null (pandas `NaN`), a string, or
an integer. -/
inductive Scalar where
  | null
  | s (v : String)
  | i (n : Int)
deriving DecidableEq

/-- Python `str(...)` coercion of a cell value. -/
def Scalar.toStr : Scalar → String
  | .null => "nan"
  | .s v => v
  | .i n => toString n

/-- `langchain_core.documents.Document`: page content plus a metadata
mapping (an association list keyed by field name). -/
structure Document where
  page_content : String
  metadata : List (String × Scalar)
deriving DecidableEq

/-- Boundary model of the Chroma vector store: the persisted entries,
plus the similarity score the embedding space assigns to a document for
a query.  Nearest-neighbor search returns entries ordered by this score,
descending. -/
structure Chroma where
  entries : List Document
  sim : String → Document → Int

/-- Boundary model of the BGE cross-encoder reranker
(`config.get_bge_reranker().score`): one scalar per candidate text. -/
structure Reranker where
  score : String → List String → List Int

/-- Boundary model of the answer-generating LLM (`invoke`). -/
structure LLM where
  invoke : String → String

/-- Trace of calls to external collaborators made during one operation. -/
inductive Event where
  | vectorSearch (query : String) (k : Int)
  | getReranker
  | rerankScore (query : String)
  | llmInvoke (prompt : String)
deriving DecidableEq

/-- Message roles (`HumanMessage` / `AIMessage` / `SystemMessage`, or the
dict `"role"` field). -/
inductive Role where
  | user
  | assistant
  | system
deriving DecidableEq

/-- A chat message. -/
structure Msg where
  role : Role
  content : String
deriving DecidableEq

/-- A retrieved chunk as returned to the backend:
`{"metadata": ..., "snippet": doc.page_content[:400]}`. -/
structure Retrieved where
  metadata : List (String × Scalar)
  snippet : String
deriving DecidableEq

/-- Result dict of `run_chat`. -/
structure ChatResult where
  answer : String
  messages : List Msg
  retrieved : List Retrieved
deriving DecidableEq

/-- `langgraph_app.state.ChatState`. -/
structure ChatState where
  messages : List Msg
  last_retrieved : List Retrieved
deriving DecidableEq

/-- Comparison used by `pairs.sort(key=lambda t: t[1], reverse=True)`:
`a` may precede `b` when `a`'s score is at least `b`'s.  A stable sort by
this relation is exactly Python's stable descending sort on the score. -/
def scoreGE (a b : Document × Int) : Prop := b.2 ≤ a.2

instance : DecidableRel scoreGE := fun a b => Int.decLe b.2 a.2

instance : IsTotal (Document × Int) scoreGE := ⟨fun a b => le_total b.2 a.2⟩

instance : IsTrans (Document × Int) scoreGE :=
  ⟨fun _ _ _ hab hbc => le_trans hbc hab⟩

/-- Python's stable sort, descending on the score component. -/
def sortByScoreDesc (l : List (Document × Int)) : List (Document × Int) :=
  List.insertionSort scoreGE l

/-- Python list slicing `l[:k]` for an integer bound: a nonnegative bound
keeps the first `k` elements, a negative bound drops the last `-k`. -/
def pySlice (k : Int) (l : List α) : List α :=
  if k < 0 then l.take (l.length - min l.length (-k).toNat) else l.take k.toNat

/-- Modelled from the spec: stage-1 nearest-neighbor similarity search
(`vs.as_retriever(search_type="similarity", search_kwargs={"k": n})
.invoke(query)`, external Chroma code) returns up to `n` entries ordered
by similarity score descending. -/
def similaritySearch (vs : Chroma) (query : String) (n : Int) : List Document :=
  ((sortByScoreDesc (vs.entries.map (fun d => (d, vs.sim query d)))).map
    Prod.fst).take n.toNat

/-- A single apostrophe character (used inside source string literals). -/
def apos : String := String.singleton (Char.ofNat 39)

/-- The fixed no-results answer of `rag_answer` and `agent_node`. -/
def noResultsAnswer : String :=
  "I couldn" ++ apos ++ "t find anything relevant in the product database."

/-- The RAG prompt built by `rag_answer` (string `.format`) and
`agent_node` (f-string); both strip to the same text. -/
def buildPrompt (context query : String) : String :=
  "Use ONLY the following product information to answer the question.\nIf the answer is not in the context, say you don"
    ++ apos ++ "t know.\n\nCONTEXT:\n" ++ context ++ "\n\nQUESTION:\n" ++ query
    ++ "\n\nANSWER:"

/-- `vector_pipeline.retrieval.retrieve_documents`.  Returns the
documents together with the trace of external calls the body makes. -/
def retrieve_documents (query : String) (vs : Chroma) (reranker : Reranker)
    (k : Int) (use_reranker : Bool) (initial_k : Option Int) :
    List Document × List Event :=
  if !use_reranker then
    (similaritySearch vs query k, [Event.vectorSearch query k])
  else
    let ik := initial_k.getD (max (k * 4) (k + 8))
    let candidate_docs := similaritySearch vs query ik
    if candidate_docs.isEmpty then
      ([], [Event.vectorSearch query ik])
    else
      let scores := reranker.score query (candidate_docs.map (·.page_content))
      let pairs := candidate_docs.zip scores
      let sorted := sortByScoreDesc pairs
      let reranked_docs := (pySlice k sorted).map Prod.fst
      (reranked_docs,
        [Event.vectorSearch query ik, Event.getReranker, Event.rerankScore query])

/-- `vector_pipeline.retrieval.rag_answer` (with the vector store passed
explicitly; `vs=None` only triggers loading the same store). -/
def rag_answer (query : String) (vs : Chroma) (reranker : Reranker) (k : Int)
    (use_reranker : Bool) (llm : LLM) : String × List Event :=
  let r := retrieve_documents query vs reranker k use_reranker none
  let docs := r.fst
  if docs.isEmpty then (noResultsAnswer, r.snd)
  else
    let context :=
      String.intercalate "\n\n---\n\n" ((pySlice k docs).map (·.page_content))
    let prompt := buildPrompt context query
    (llm.invoke prompt, r.snd ++ [Event.llmInvoke prompt])

/-! ### Ingestion (`vector_pipeline/ingestion.py`) -/

/-- `settings.COMBINED_TEXT_COLUMN`. -/
def COMBINED_TEXT_COLUMN : String := "combined_text"

/-- A pandas dataframe: named columns and rows of cells (each row aligned
positionally with `columns`). -/
structure DataFrame where
  columns : List String
  rows : List (List Scalar)
deriving DecidableEq

/-- Look a row's cell up by column label. -/
def getCell (cols : List String) (row : List Scalar) (c : String) : Scalar :=
  ((cols.zip row).lookup c).getD Scalar.null

/-- `df.fillna("")` on one cell. -/
def fillCell : Scalar → Scalar
  | .null => .s ""
  | v => v

/-- `df.fillna("")` on one row. -/
def fillRow (row : List Scalar) : List Scalar := row.map fillCell

/-- Row survives `df.dropna(subset=[COMBINED_TEXT_COLUMN])`. -/
def keepRow (cols : List String) (row : List Scalar) : Bool :=
  !(getCell cols row COMBINED_TEXT_COLUMN == Scalar.null)

/-- `ingestion.load_dataframe`, with the on-disk pickle's content given
as the input dataframe.  Fails (Python `ValueError`, the spec's
`DataFormatError`) when the combined-text column is absent; otherwise
drops rows whose combined-text cell is null and replaces remaining null
cells with the empty string. -/
def load_dataframe (df : DataFrame) : Except String DataFrame :=
  if COMBINED_TEXT_COLUMN ∈ df.columns then
    Except.ok { columns := df.columns,
                rows := (df.rows.filter (keepRow df.columns)).map fillRow }
  else
    Except.error ("Expected column " ++ COMBINED_TEXT_COLUMN ++ " not found")

/-- Python dict assignment `d[key] = v`: update in place when the key is
present, append otherwise. -/
def dictSet (l : List (String × Scalar)) (key : String) (v : Scalar) :
    List (String × Scalar) :=
  if l.any (fun p => p.1 == key) then
    l.map (fun p => if p.1 = key then (key, v) else p)
  else l ++ [(key, v)]

/-- One iteration of the `dataframe_to_documents` loop: the row dict is
the column-to-cell mapping; `pop` of the combined-text key fails
(`KeyError`) when that key is absent. -/
def rowToDoc (cols : List String) (row_index : Nat) (row : List Scalar) :
    Except String Document :=
  match (cols.zip row).lookup COMBINED_TEXT_COLUMN with
  | some v =>
      Except.ok
        { page_content := v.toStr,
          metadata :=
            dictSet ((cols.zip row).filter
                (fun p => !(p.1 == COMBINED_TEXT_COLUMN)))
              "row_index" (Scalar.i row_index) }
  | none => Except.error "KeyError: combined_text"

/-- The `for row_index, (_, row) in enumerate(df.iterrows())` loop with
its running counter. -/
def rowsToDocs (cols : List String) (row_index : Nat) :
    List (List Scalar) → Except String (List Document)
  | [] => Except.ok []
  | row :: rest => do
      let d ← rowToDoc cols row_index row
      let ds ← rowsToDocs cols (row_index + 1) rest
      Except.ok (d :: ds)

/-- `ingestion.dataframe_to_documents`. -/
def dataframe_to_documents (df : DataFrame) : Except String (List Document) :=
  rowsToDocs df.columns 0 df.rows

/-- The ingestion load-and-convert step:
`dataframe_to_documents(load_dataframe())`. -/
def loadAndConvert (df : DataFrame) : Except String (List Document) :=
  load_dataframe df >>= dataframe_to_documents

end Rag

namespace Rag.Nodes

/-- `langgraph_app.nodes._get_last_user_message`: scan the history
backward for the last user-role message, raising when none exists. -/
def get_last_user_message (messages : List Msg) : Except String Msg :=
  match messages.reverse.find? (fun m => m.role == Role.user) with
  | some m => Except.ok m
  | none => Except.error "No HumanMessage found in state.messages."

/-- `langgraph_app.nodes.agent_node`, composed with the `add_messages`
append semantics of the surrounding graph: the returned state has the new
assistant message appended to the incoming history.  The store, reranker
and LLM singletons are passed explicitly. -/
def agent_node (vs : Chroma) (reranker : Reranker) (llm : LLM)
    (state : ChatState) : Except String (ChatState × List Event) :=
  match get_last_user_message state.messages with
  | Except.error e => Except.error e
  | Except.ok last_user =>
    let query := last_user.content
    let r := retrieve_documents query vs reranker 4 true none
    let docs := r.fst
    if docs.isEmpty then
      Except.ok
        ({ messages := state.messages ++ [⟨Role.assistant, noResultsAnswer⟩],
           last_retrieved := [] }, r.snd)
    else
      let retrieved := docs.map
        (fun d => { metadata := d.metadata, snippet := d.page_content.take 400 })
      let context := String.intercalate "\n\n---\n\n" (docs.map (·.page_content))
      let prompt := buildPrompt context query
      let answer_text := llm.invoke prompt
      Except.ok
        ({ messages := state.messages ++ [⟨Role.assistant, answer_text⟩],
           last_retrieved := retrieved }, r.snd ++ [Event.llmInvoke prompt])

end Rag.Nodes

namespace Rag.ApiWrapper

/-- `vector_pipeline.api_wrapper._get_last_user_message`: returns the
last message of the history (whatever its role), raising only on an
empty history. -/
def get_last_user_message (messages : List Msg) : Except String Msg :=
  match messages.getLast? with
  | some m => Except.ok m
  | none =>
      Except.error "messages list is empty – cannot answer without input."

/-- `vector_pipeline.api_wrapper.run_chat` (the classic, non-LangGraph
entry point), with the vector store / reranker / LLM singletons passed
explicitly.  Returns the result dict together with the trace of external
calls. -/
def run_chat (vs : Chroma) (reranker : Reranker) (llm : LLM)
    (messages : List Msg) (k : Int) (use_reranker : Bool) :
    Except String (ChatResult × List Event) :=
  match get_last_user_message messages with
  | Except.error e => Except.error e
  | Except.ok last_msg =>
    let query := last_msg.content
    let r := retrieve_documents query vs reranker k use_reranker none
    let retrieved := r.fst.map
      (fun d => { metadata := d.metadata, snippet := d.page_content.take 400 })
    let a := rag_answer query vs reranker k use_reranker llm
    let assistant_message : Msg := ⟨Role.assistant, a.fst⟩
    Except.ok
      ({ answer := a.fst,
         messages := messages ++ [assistant_message],
         retrieved := retrieved }, r.snd ++ a.snd)

end Rag.ApiWrapper

namespace Rag.ApiWrapperLg

/-- Python errors that `run_chat_langgraph_stateless` can raise. -/
inductive LgError where
  | runtimeError (msg : String)
  | nameError (name : String)
deriving DecidableEq

/-- The names bound by the conditional import
`from langgraph_app import run_chat_session as _lg_run_chat_session,
run_chat_stateless as _lg_run_chat_stateless` (lines 68-76 of
`api_wrapper_lg.py`); empty when the import failed. -/
def lgImportedNames (available : Bool) : List String :=
  if available then ["_lg_run_chat_session", "_lg_run_chat_stateless"] else []

/-- The global names of the `vector_pipeline.api_wrapper_lg` module:
its unconditional imports, the conditionally imported LangGraph runners,
and its own module-level definitions. -/
def moduleGlobals (available : Bool) : List String :=
  ["Any", "Dict", "List", "Optional", "Chroma", "build_or_load_vectorstore",
   "retrieve_documents", "rag_answer"]
    ++ lgImportedNames available
    ++ ["_LANGGRAPH_AVAILABLE", "_vectorstore", "get_vectorstore",
        "_get_last_user_message", "run_chat", "answer_single_turn",
        "_ensure_langgraph", "run_chat_langgraph_session",
        "run_chat_langgraph_stateless"]

/-- `api_wrapper_lg.run_chat_langgraph_stateless`: `_ensure_langgraph()`
raises `RuntimeError` when the LangGraph import failed; otherwise the
body evaluates the global name `_lg_run_stateless`, which Python resolves
against the module globals, raising `NameError` when it is unbound.
`lgRunStateless` stands for the imported graph runner that the body was
presumably meant to call. -/
def run_chat_langgraph_stateless (available : Bool)
    (lgRunStateless : List Msg → ChatResult) (messages : List Msg) :
    Except LgError ChatResult :=
  if !available then
    LgError.runtimeError "LangGraph-based functions are not available"
      |> Except.error
  else if "_lg_run_stateless" ∈ moduleGlobals available then
    Except.ok (lgRunStateless messages)
  else
    Except.error (LgError.nameError "_lg_run_stateless")

end Rag.ApiWrapperLg

namespace Rag

/-! ### Concrete fixtures for witnesses and counterexamples -/

/-- A document with the given content and empty metadata. -/
def mkDoc (s : String) : Document := ⟨s, []⟩

/-- An empty vector store. -/
def emptyStore : Chroma := ⟨[], fun _ _ => 0⟩

/-- A store with nine documents, similarity given by content length. -/
def store9 : Chroma :=
  ⟨[mkDoc "a", mkDoc "bb", mkDoc "ccc", mkDoc "dddd", mkDoc "eeeee",
    mkDoc "ffffff", mkDoc "ggggggg", mkDoc "hhhhhhhh", mkDoc "iiiiiiiii"],
   fun _ d => Int.ofNat d.page_content.length⟩

/-- A reranker scoring each candidate text by its length. -/
def lenReranker : Reranker :=
  ⟨fun _ ts => ts.map (fun t => Int.ofNat t.length)⟩

/-- A constant-answer LLM. -/
def constLLM : LLM := ⟨fun _ => "ok"⟩

/-- A small concrete dataframe: one null combined-text row (dropped), one
null metadata cell (filled), three columns. -/
def sampleDF : DataFrame :=
  { columns := ["brand", "combined_text", "price"],
    rows := [[Scalar.s "acme", Scalar.s "guitar", Scalar.i 100],
             [Scalar.s "bolt", Scalar.null, Scalar.i 5],
             [Scalar.null, Scalar.s "drum", Scalar.null]] }

/-- Default document for positional indexing in statements. -/
def dummyDoc : Document := ⟨"", []⟩

/-- `out` is the stable descending sort of `inp` by the score component:
a permutation, with scores non-increasing, preserving the relative input
order of entries with equal scores. -/
def IsStableDescSort (inp out : List (Document × Int)) : Prop :=
  out.Perm inp
    ∧ List.Pairwise (fun a b : Document × Int => b.2 ≤ a.2) out
    ∧ ∀ s : Int, out.filter (fun p => p.2 == s) = inp.filter (fun p => p.2 == s)

/-! ### Helper lemmas -/

theorem sortByScoreDesc_perm (l : List (Document × Int)) :
    (sortByScoreDesc l).Perm l :=
  List.perm_insertionSort scoreGE l

theorem sortByScoreDesc_length (l : List (Document × Int)) :
    (sortByScoreDesc l).length = l.length :=
  List.length_insertionSort scoreGE l

theorem sortByScoreDesc_pairwise (l : List (Document × Int)) :
    List.Pairwise (fun a b : Document × Int => b.2 ≤ a.2) (sortByScoreDesc l) :=
  List.sorted_insertionSort scoreGE l

theorem filter_orderedInsert_score (x : Document × Int) (s : Int) :
    ∀ l : List (Document × Int),
      (List.orderedInsert scoreGE x l).filter (fun p => p.2 == s)
        = if x.2 == s then x :: l.filter (fun p => p.2 == s)
          else l.filter (fun p => p.2 == s)
  | [] => by
      by_cases h : x.2 = s <;> simp [List.orderedInsert, h]
  | b :: l => by
      simp only [List.orderedInsert]
      by_cases hxb : scoreGE x b
      · rw [if_pos hxb]
        by_cases hx : x.2 = s <;> simp [List.filter_cons, hx]
      · rw [if_neg hxb]
        have hlt : x.2 < b.2 := lt_of_not_le hxb
        by_cases hx : x.2 = s
        · have hb : ¬ b.2 = s := by omega
          simp [List.filter_cons, hx, hb, filter_orderedInsert_score x s l]
        · simp [List.filter_cons, hx, filter_orderedInsert_score x s l]

theorem sortByScoreDesc_filter (s : Int) (l : List (Document × Int)) :
    (sortByScoreDesc l).filter (fun p => p.2 == s)
      = l.filter (fun p => p.2 == s) := by
  induction l with
  | nil => rfl
  | cons x l ih =>
    simp only [sortByScoreDesc, List.insertionSort] at *
    rw [filter_orderedInsert_score x s, ih]
    by_cases hx : x.2 = s <;> simp [List.filter_cons, hx]

theorem similaritySearch_length (vs : Chroma) (q : String) (n : Int) :
    (similaritySearch vs q n).length = min n.toNat vs.entries.length := by
  unfold similaritySearch
  rw [List.length_take, List.length_map, sortByScoreDesc_length, List.length_map]

theorem pySlice_length_of_nonneg (k : Int) (hk : 0 ≤ k) (l : List α) :
    (pySlice k l).length = min k.toNat l.length := by
  unfold pySlice
  rw [if_neg (not_lt.mpr hk), List.length_take]

theorem retrieve_trace_head (query : String) (vs : Chroma)
    (reranker : Reranker) (k : Int) (ur : Bool) (iopt : Option Int) :
    ∃ n, ((retrieve_documents query vs reranker k ur iopt).snd).head?
      = some (Event.vectorSearch query n) := by
  cases ur with
  | false => exact ⟨k, rfl⟩
  | true =>
    refine ⟨iopt.getD (max (k * 4) (k + 8)), ?_⟩
    by_cases hempty :
        (similaritySearch vs query (iopt.getD (max (k * 4) (k + 8)))).isEmpty <;>
      simp [retrieve_documents, hempty]

theorem llmInvoke_not_mem_retrieve_trace (query : String) (vs : Chroma)
    (reranker : Reranker) (k : Int) (ur : Bool) (iopt : Option Int) (p : String) :
    Event.llmInvoke p ∉ (retrieve_documents query vs reranker k ur iopt).snd := by
  cases ur with
  | false => simp [retrieve_documents]
  | true =>
    by_cases hempty :
        (similaritySearch vs query (iopt.getD (max (k * 4) (k + 8)))).isEmpty <;>
      simp [retrieve_documents, hempty]

theorem find?_decomp {p : Msg → Bool} :
    ∀ {l : List Msg} {a : Msg}, l.find? p = some a →
      p a = true ∧ ∃ t u, l = t ++ a :: u ∧ ∀ x ∈ t, p x = false := by
  intro l
  induction l with
  | nil => intro a h; simp [List.find?] at h
  | cons b l ih =>
    intro a h
    by_cases hb : p b
    · rw [List.find?_cons_of_pos _ hb] at h
      cases h
      exact ⟨hb, [], l, rfl, by simp⟩
    · rw [List.find?_cons_of_neg _ (by simpa using hb)] at h
      obtain ⟨hpa, t, u, hl, ht⟩ := ih h
      refine ⟨hpa, b :: t, u, by rw [hl, List.cons_append], ?_⟩
      intro x hx
      rcases List.mem_cons.mp hx with hxb | hxt
      · subst hxb; simpa using hb
      · exact ht x hxt

theorem getD_mem_of_lt {α : Type} {d : α} :
    ∀ {l : List α} {n : Nat}, n < l.length → l.getD n d ∈ l := by
  intro l
  induction l with
  | nil => intro n h; simp at h
  | cons x xs ih =>
    intro n h
    cases n with
    | zero => simp
    | succ m =>
      rw [List.getD_cons_succ]
      exact List.mem_cons_of_mem x (ih (by simpa using h))

theorem getD_map_fillRow :
    ∀ (l : List (List Scalar)) (j : Nat), j < l.length →
      (l.map fillRow).getD j [] = fillRow (l.getD j []) := by
  intro l
  induction l with
  | nil => intro j h; simp at h
  | cons x xs ih =>
    intro j h
    cases j with
    | zero => simp
    | succ m =>
      simp only [List.map_cons, List.getD_cons_succ]
      exact ih m (by simpa using h)

theorem lookup_cons (c : String) (p : String × Scalar)
    (l : List (String × Scalar)) :
    (p :: l).lookup c = if c = p.1 then some p.2 else l.lookup c := by
  obtain ⟨k, v⟩ := p
  simp only [List.lookup]
  by_cases h : c = k
  · rw [show (c == k) = true by simpa using h, if_pos h]
  · rw [show (c == k) = false by simpa using h, if_neg h]

theorem lookup_zip_of_mem {c : String} :
    ∀ {cols : List String} {row : List Scalar}, c ∈ cols →
      row.length = cols.length →
      ∃ v, (cols.zip row).lookup c = some v := by
  intro cols
  induction cols with
  | nil => intro row hc; simp at hc
  | cons col cs ih =>
    intro row hc hlen
    cases row with
    | nil => simp at hlen
    | cons v vs =>
      rw [List.zip_cons_cons, lookup_cons]
      by_cases h : c = col
      · exact ⟨v, if_pos h⟩
      · have hc2 : c ∈ cs := by
          rcases List.mem_cons.mp hc with h1 | h1
          · exact absurd h1 h
          · exact h1
        obtain ⟨w, hw⟩ := ih hc2 (by simpa using hlen)
        exact ⟨w, by rw [if_neg h, hw]⟩

theorem lookup_zip_fill (c : String) :
    ∀ (cols : List String) (row : List Scalar),
      (cols.zip (fillRow row)).lookup c
        = ((cols.zip row).lookup c).map fillCell := by
  intro cols
  induction cols with
  | nil => intro row; simp
  | cons col cs ih =>
    intro row
    cases row with
    | nil => simp [fillRow]
    | cons v vs =>
      show ((col :: cs).zip (fillCell v :: fillRow vs)).lookup c = _
      rw [List.zip_cons_cons, List.zip_cons_cons, lookup_cons, lookup_cons]
      by_cases h : c = col
      · rw [if_pos h, if_pos h]
        rfl
      · rw [if_neg h, if_neg h, ih vs]

theorem lookup_of_any_false {key : String} :
    ∀ {l : List (String × Scalar)}, l.any (fun p => p.1 == key) = false →
      l.lookup key = none := by
  intro l
  induction l with
  | nil => intro _; rfl
  | cons p rest ih =>
    intro h
    simp only [List.any_cons, Bool.or_eq_false_iff] at h
    have h1 : ¬ p.1 = key := by simpa using h.1
    rw [lookup_cons, if_neg (fun hk => h1 hk.symm)]
    exact ih h.2

theorem lookup_append_single (key : String) (v : Scalar) :
    ∀ (l : List (String × Scalar)), l.lookup key = none →
      (l ++ [(key, v)]).lookup key = some v := by
  intro l
  induction l with
  | nil => intro _; rw [List.nil_append, lookup_cons, if_pos rfl]
  | cons p rest ih =>
    intro h
    rw [lookup_cons] at h
    by_cases hk : key = p.1
    · rw [if_pos hk] at h; cases h
    · rw [if_neg hk] at h
      rw [List.cons_append, lookup_cons, if_neg hk]
      exact ih h

theorem lookup_map_set (key : String) (v : Scalar) :
    ∀ (l : List (String × Scalar)), l.any (fun p => p.1 == key) = true →
      (l.map (fun p => if p.1 = key then (key, v) else p)).lookup key
        = some v := by
  intro l
  induction l with
  | nil => intro h; simp at h
  | cons p rest ih =>
    intro h
    rw [List.map_cons]
    by_cases hk : p.1 = key
    · rw [if_pos hk, lookup_cons, if_pos rfl]
    · rw [if_neg hk, lookup_cons, if_neg (fun hkk => hk hkk.symm)]
      exact ih (by simpa [hk] using h)

theorem lookup_dictSet (l : List (String × Scalar)) (key : String)
    (v : Scalar) : (dictSet l key v).lookup key = some v := by
  unfold dictSet
  by_cases hany : l.any (fun p => p.1 == key)
  · rw [if_pos hany]
    exact lookup_map_set key v l hany
  · rw [if_neg hany]
    exact lookup_append_single key v l
      (lookup_of_any_false (Bool.not_eq_true _ ▸ eq_false_of_ne_true hany))

theorem lookup_map_set_ne (key : String) (v : Scalar) {col : String}
    (hne : ¬ col = key) :
    ∀ (l : List (String × Scalar)),
      (l.map (fun p => if p.1 = key then (key, v) else p)).lookup col
        = l.lookup col := by
  intro l
  induction l with
  | nil => rfl
  | cons p rest ih =>
    rw [List.map_cons, lookup_cons col p rest]
    by_cases hk : p.1 = key
    · have hc : ¬ col = p.1 := fun h => hne (h.trans hk)
      rw [if_pos hk,
        lookup_cons col (key, v) (rest.map (fun p => if p.1 = key then (key, v) else p)),
        ih, if_neg hne, if_neg hc]
    · rw [if_neg hk,
        lookup_cons col p (rest.map (fun p => if p.1 = key then (key, v) else p)),
        ih]

theorem lookup_append_single_ne (key : String) (v : Scalar) {col : String}
    (hne : ¬ col = key) :
    ∀ (l : List (String × Scalar)),
      (l ++ [(key, v)]).lookup col = l.lookup col := by
  intro l
  induction l with
  | nil =>
    rw [List.nil_append, lookup_cons, if_neg hne]
  | cons p rest ih =>
    rw [List.cons_append, lookup_cons col p (rest ++ [(key, v)]),
      lookup_cons col p rest, ih]

theorem lookup_dictSet_ne (l : List (String × Scalar)) (key : String)
    (v : Scalar) {col : String} (hne : ¬ col = key) :
    (dictSet l key v).lookup col = l.lookup col := by
  unfold dictSet
  by_cases hany : l.any (fun p => p.1 == key)
  · rw [if_pos hany]
    exact lookup_map_set_ne key v hne l
  · rw [if_neg hany]
    exact lookup_append_single_ne key v hne l

theorem lookup_filter_ne (c : String) {col : String} (hne : ¬ col = c) :
    ∀ (l : List (String × Scalar)),
      (l.filter (fun p => !(p.1 == c))).lookup col = l.lookup col := by
  intro l
  induction l with
  | nil => rfl
  | cons p rest ih =>
    rw [List.filter_cons]
    by_cases hk : p.1 = c
    · have hc : ¬ col = p.1 := fun h => hne (h.trans hk)
      rw [if_neg (by simp [hk]), ih, lookup_cons col p rest, if_neg hc]
    · rw [if_pos (by simpa using hk),
        lookup_cons col p (rest.filter (fun p => !(p.1 == c))),
        lookup_cons col p rest, ih]

theorem rowsToDocs_spec (cols : List String) (rows : List (List Scalar)) :
    ∀ i0 : Nat,
      (∀ row ∈ rows, ∃ v,
        (cols.zip row).lookup COMBINED_TEXT_COLUMN = some v) →
      ∃ docs, rowsToDocs cols i0 rows = Except.ok docs
        ∧ docs.length = rows.length
        ∧ ∀ j, j < rows.length →
            (docs.getD j dummyDoc).page_content
                = (getCell cols (rows.getD j []) COMBINED_TEXT_COLUMN).toStr
              ∧ (docs.getD j dummyDoc).metadata.lookup "row_index"
                  = some (Scalar.i (i0 + j))
              ∧ ∀ col : String, ¬ col = "row_index" →
                  ¬ col = COMBINED_TEXT_COLUMN →
                  (docs.getD j dummyDoc).metadata.lookup col
                    = (cols.zip (rows.getD j [])).lookup col := by
  induction rows with
  | nil =>
    intro i0 _
    exact ⟨[], rfl, rfl, fun j hj => absurd hj (by simp)⟩
  | cons row rest ih =>
    intro i0 hsome
    obtain ⟨v, hv⟩ := hsome row (List.mem_cons_self row rest)
    obtain ⟨docs2, hdocs2, hlen2, hspec2⟩ :=
      ih (i0 + 1) (fun r hr => hsome r (List.mem_cons_of_mem row hr))
    refine ⟨{ page_content := v.toStr,
              metadata := dictSet
                ((cols.zip row).filter
                  (fun p => !(p.1 == COMBINED_TEXT_COLUMN)))
                "row_index" (Scalar.i i0) } :: docs2, ?_, ?_, ?_⟩
    · unfold rowsToDocs rowToDoc
      rw [hv, hdocs2]
      rfl
    · simpa using hlen2
    · intro j hj
      cases j with
      | zero =>
        refine ⟨?_, ?_, ?_⟩
        · show v.toStr = (getCell cols row COMBINED_TEXT_COLUMN).toStr
          simp only [getCell]
          rw [hv]
          rfl
        · show (dictSet ((cols.zip row).filter
              (fun p => !(p.1 == COMBINED_TEXT_COLUMN)))
                "row_index" (Scalar.i i0)).lookup "row_index"
            = some (Scalar.i (i0 + 0))
          rw [lookup_dictSet]
          rfl
        · intro col hcol1 hcol2
          show (dictSet ((cols.zip row).filter
              (fun p => !(p.1 == COMBINED_TEXT_COLUMN)))
                "row_index" (Scalar.i i0)).lookup col = _
          rw [lookup_dictSet_ne _ _ _ hcol1,
            lookup_filter_ne _ hcol2]
          rfl
      | succ j =>
        have hj2 : j < rest.length := by simpa using hj
        obtain ⟨h1, h2, h3⟩ := hspec2 j hj2
        refine ⟨?_, ?_, ?_⟩
        · simpa using h1
        · have hadd : ((i0 : Int) + 1 + (j : Int))
              = (i0 : Int) + ((j : Int) + 1) := by ring
          simpa [hadd] using h2
        · intro col hcol1 hcol2
          simpa using h3 col hcol1 hcol2

/-! ### Claim theorems -/

/-- C1: for every query, positive `k` and store state,
`retrieve_documents` returns a sequence of length `min k` (number of
candidates available in the store), hence at most `k`, in both the
reranked and non-reranked mode (given the reranker's boundary contract of
one score per candidate). -/
theorem retrieve_documents_length_eq_min (query : String) (vs : Chroma)
    (reranker : Reranker) (k : Int) (use_reranker : Bool) (hk : 1 ≤ k)
    (hscore : ∀ q ts, (reranker.score q ts).length = ts.length) :
    ((retrieve_documents query vs reranker k use_reranker none).fst).length
      = min k.toNat vs.entries.length := by
  cases use_reranker with
  | false =>
    simpa [retrieve_documents] using similaritySearch_length vs query k
  | true =>
    by_cases hempty : (similaritySearch vs query (max (k * 4) (k + 8))).isEmpty
    · have h0 := similaritySearch_length vs query (max (k * 4) (k + 8))
      rw [List.isEmpty_iff] at hempty
      rw [hempty] at h0
      simp only [List.length_nil] at h0
      have hzero : vs.entries.length = 0 := by omega
      simp [retrieve_documents, hempty, hzero]
    · simp only [retrieve_documents, Bool.not_true, Bool.false_eq_true,
        if_false, Option.getD_none, hempty, List.length_map]
      rw [pySlice_length_of_nonneg k (by omega), sortByScoreDesc_length,
        List.length_zip, hscore, List.length_map, similaritySearch_length]
      omega

/-- C1 witness: at `k = 3` over a nine-entry store the reranked result
has length `min 3 9 = 3`. -/
theorem retrieve_documents_length_eq_min_witness :
    (1 : Int) ≤ 3
      ∧ ((retrieve_documents "q" store9 lenReranker 3 true none).fst).length
        = min (3 : Int).toNat store9.entries.length :=
  ⟨by decide,
    retrieve_documents_length_eq_min "q" store9 lenReranker 3 true (by decide)
      (fun q ts => by simp [lenReranker])⟩

/-- C2: the stage-1 nearest-neighbor request size is exactly `k` with
reranking disabled, and exactly `max (4 * k) (k + 8)` with reranking
enabled and no `initial_k` override. -/
theorem stage1_candidate_count (query : String) (vs : Chroma)
    (reranker : Reranker) (k : Int) (iopt : Option Int) :
    (retrieve_documents query vs reranker k false iopt).snd
        = [Event.vectorSearch query k]
      ∧ ((retrieve_documents query vs reranker k true none).snd).head?
        = some (Event.vectorSearch query (max (k * 4) (k + 8))) := by
  refine ⟨rfl, ?_⟩
  by_cases hempty : (similaritySearch vs query (max (k * 4) (k + 8))).isEmpty <;>
    simp [retrieve_documents, hempty]

/-- C5: when stage 1 returns zero candidates with reranking enabled, the
engine returns the empty sequence and the whole external trace is the one
vector search: the reranker is neither acquired nor invoked. -/
theorem empty_stage1_skips_reranker (query : String) (vs : Chroma)
    (reranker : Reranker) (k : Int)
    (h : similaritySearch vs query (max (k * 4) (k + 8)) = []) :
    retrieve_documents query vs reranker k true none
      = ([], [Event.vectorSearch query (max (k * 4) (k + 8))]) := by
  simp [retrieve_documents, h]

/-- C5 witness: the concrete empty-store scenario
(`retrieve("anything", 4, true)` on an empty chunk store). -/
theorem empty_stage1_skips_reranker_witness :
    similaritySearch emptyStore "anything" (max (4 * 4) (4 + 8)) = []
      ∧ retrieve_documents "anything" emptyStore lenReranker 4 true none
        = ([], [Event.vectorSearch "anything" (max (4 * 4) (4 + 8))]) :=
  ⟨rfl, empty_stage1_skips_reranker "anything" emptyStore lenReranker 4 rfl⟩

/-- C3: with reranking enabled and a nonempty stage-1 candidate
sequence, the output of `retrieve_documents` is the candidate/score
pairs sorted by score non-increasing, ties kept in stage-1 input order
(stable sort), truncated to the first `k` entries. -/
theorem rerank_stable_desc_truncated (query : String) (vs : Chroma)
    (reranker : Reranker) (k : Int) (hk : 0 ≤ k)
    (hne : similaritySearch vs query (max (k * 4) (k + 8)) ≠ []) :
    ∃ sorted,
      IsStableDescSort
        ((similaritySearch vs query (max (k * 4) (k + 8))).zip
          (reranker.score query
            ((similaritySearch vs query (max (k * 4) (k + 8))).map
              (·.page_content))))
        sorted
      ∧ (retrieve_documents query vs reranker k true none).fst
          = (sorted.map Prod.fst).take k.toNat := by
  refine ⟨sortByScoreDesc _,
    ⟨sortByScoreDesc_perm _, sortByScoreDesc_pairwise _,
      fun s => sortByScoreDesc_filter s _⟩, ?_⟩
  have hempty : (similaritySearch vs query (max (k * 4) (k + 8))).isEmpty
      = false := by
    simpa [List.isEmpty_iff] using hne
  simp only [retrieve_documents, Bool.not_true, Bool.false_eq_true, if_false,
    Option.getD_none, hempty]
  rw [pySlice, if_neg (not_lt.mpr hk), List.map_take]

/-- C3 witness: concrete nonempty store at `k = 2`. -/
theorem rerank_stable_desc_truncated_witness :
    (0 : Int) ≤ 2
      ∧ similaritySearch store9 "q" (max (2 * 4) (2 + 8)) ≠ []
      ∧ ∃ sorted,
          IsStableDescSort
            ((similaritySearch store9 "q" (max (2 * 4) (2 + 8))).zip
              (lenReranker.score "q"
                ((similaritySearch store9 "q" (max (2 * 4) (2 + 8))).map
                  (·.page_content))))
            sorted
          ∧ (retrieve_documents "q" store9 lenReranker 2 true none).fst
              = (sorted.map Prod.fst).take (2 : Int).toNat :=
  ⟨by decide, by decide,
    rerank_stable_desc_truncated "q" store9 lenReranker 2 (by decide)
      (by decide)⟩

/-- C4 counterexample: at the non-positive argument `k = -1` (reranking
enabled, nine-entry store) the engine does not fail at all: it returns a
six-element result (Python slice `pairs[:-1]` over the seven stage-1
candidates), so no `InvalidArgument` error is raised. -/
theorem nonpositive_k_returns_result_cex :
    (-1 : Int) ≤ 0
      ∧ ((retrieve_documents "q" store9 lenReranker (-1) true none).fst).length
          = 6 :=
  ⟨by decide, by decide⟩

/-- C4 amended: `retrieve_documents` performs no validation of `k`.
For every `k ≤ 0` the reranked call returns normally: `k = 0` yields the
empty sequence, and `k < 0` yields the reranked candidates with the last
`min (-k) (candidate count)` entries dropped (Python slice semantics). -/
theorem retrieve_documents_nonpositive_k (query : String) (vs : Chroma)
    (reranker : Reranker) (k : Int) (hk : k ≤ 0)
    (hscore : ∀ q ts, (reranker.score q ts).length = ts.length) :
    ((retrieve_documents query vs reranker k true none).fst).length
      = if k < 0 then
          min (max (k * 4) (k + 8)).toNat vs.entries.length
            - min (min (max (k * 4) (k + 8)).toNat vs.entries.length) (-k).toNat
        else 0 := by
  by_cases hempty : (similaritySearch vs query (max (k * 4) (k + 8))).isEmpty
  · rw [List.isEmpty_iff] at hempty
    have h0 := similaritySearch_length vs query (max (k * 4) (k + 8))
    rw [hempty] at h0
    simp only [List.length_nil] at h0
    simp only [retrieve_documents, Bool.not_true, Bool.false_eq_true, if_false,
      Option.getD_none, hempty, List.isEmpty_nil, if_true, List.length_nil]
    split_ifs <;> omega
  · have hempty' : (similaritySearch vs query (max (k * 4) (k + 8))).isEmpty
        = false := by
      simp only [Bool.not_eq_true] at hempty
      exact hempty
    simp only [retrieve_documents, Bool.not_true, Bool.false_eq_true, if_false,
      Option.getD_none, hempty', List.length_map]
    unfold pySlice
    have hlen : (sortByScoreDesc
        ((similaritySearch vs query (max (k * 4) (k + 8))).zip
          (reranker.score query
            ((similaritySearch vs query (max (k * 4) (k + 8))).map
              (·.page_content))))).length
        = min (max (k * 4) (k + 8)).toNat vs.entries.length := by
      rw [sortByScoreDesc_length, List.length_zip, hscore, List.length_map,
        similaritySearch_length]
      omega
    by_cases hneg : k < 0
    · rw [if_pos hneg, if_pos hneg, List.length_take, hlen]
      omega
    · have hk0 : k = 0 := by omega
      subst hk0
      rw [if_neg hneg, if_neg hneg, List.length_take]
      simp

/-- C4 amended witness: `k = -1` over the nine-entry store. -/
theorem retrieve_documents_nonpositive_k_witness :
    (-1 : Int) ≤ 0
      ∧ ((retrieve_documents "q" store9 lenReranker (-1) true none).fst).length
        = if (-1 : Int) < 0 then
            min (max ((-1 : Int) * 4) ((-1 : Int) + 8)).toNat
                store9.entries.length
              - min (min (max ((-1 : Int) * 4) ((-1 : Int) + 8)).toNat
                  store9.entries.length) (-(-1 : Int)).toNat
          else 0 :=
  ⟨by decide,
    retrieve_documents_nonpositive_k "q" store9 lenReranker (-1) (by decide)
      (fun q ts => by simp [lenReranker])⟩

/-- C6 counterexample: the classic `run_chat` entry point runs a turn
over a caller-supplied history containing no user-role message and
succeeds (it uses the last message regardless of role) instead of
failing with a no-user-message error. -/
theorem run_chat_no_user_message_cex :
    (∀ m ∈ ([⟨Role.assistant, "hi"⟩] : List Msg), m.role ≠ Role.user)
      ∧ (ApiWrapper.run_chat emptyStore lenReranker constLLM
          [⟨Role.assistant, "hi"⟩] 4 true).isOk = true :=
  ⟨by decide, by decide⟩

/-- C6 amended: the LangGraph turn (`langgraph_app.nodes`) locates the
most recent user-role message by scanning backward and fails when none
exists; the classic `run_chat` entry point instead uses the last
message's content as the retrieval query regardless of its role, failing
only when the history is empty. -/
theorem last_user_message_behavior :
    (∀ (msgs : List Msg) (m : Msg),
        Nodes.get_last_user_message msgs = Except.ok m →
        m.role = Role.user
          ∧ ∃ pre post, msgs = pre ++ m :: post
              ∧ ∀ x ∈ post, x.role ≠ Role.user)
  ∧ (∀ msgs : List Msg, (∀ m ∈ msgs, m.role ≠ Role.user) →
        ∃ e, Nodes.get_last_user_message msgs = Except.error e)
  ∧ (∀ (vs : Chroma) (reranker : Reranker) (llm : LLM) (msgs : List Msg)
        (h : msgs ≠ []) (k : Int) (ur : Bool),
        ∃ out, ApiWrapper.run_chat vs reranker llm msgs k ur = Except.ok out
          ∧ ∃ n, out.snd.head?
              = some (Event.vectorSearch (msgs.getLast h).content n))
  ∧ (∀ (vs : Chroma) (reranker : Reranker) (llm : LLM) (k : Int) (ur : Bool),
        (ApiWrapper.run_chat vs reranker llm [] k ur).isOk = false) := by
  refine ⟨?_, ?_, ?_, fun vs reranker llm k ur => rfl⟩
  · intro msgs m hm
    unfold Nodes.get_last_user_message at hm
    cases hfind : msgs.reverse.find? (fun x => x.role == Role.user) with
    | none => rw [hfind] at hm; cases hm
    | some a =>
      rw [hfind] at hm
      cases hm
      obtain ⟨hpa, t, u, hrev, ht⟩ := find?_decomp hfind
      refine ⟨by simpa using hpa, u.reverse, t.reverse, ?_, ?_⟩
      · have := congrArg List.reverse hrev
        simpa [List.reverse_append] using this
      · intro x hx
        have hxt : x ∈ t := List.mem_reverse.mp hx
        simpa using ht x hxt
  · intro msgs hnone
    refine ⟨"No HumanMessage found in state.messages.", ?_⟩
    unfold Nodes.get_last_user_message
    rw [List.find?_eq_none.mpr ?_]
    intro x hx
    have := hnone x (List.mem_reverse.mp hx)
    simpa using this
  · intro vs reranker llm msgs h k ur
    unfold ApiWrapper.run_chat ApiWrapper.get_last_user_message
    rw [List.getLast?_eq_getLast msgs h]
    refine ⟨_, rfl, ?_⟩
    obtain ⟨n, hn⟩ := retrieve_trace_head (msgs.getLast h).content vs reranker
      k ur none
    refine ⟨n, ?_⟩
    cases hsnd : (retrieve_documents (msgs.getLast h).content vs reranker
        k ur none).snd with
    | nil => rw [hsnd] at hn; cases hn
    | cons e rest =>
      rw [hsnd] at hn
      simpa using hn

/-- C6 amended witness: concrete instances of the amended behavior. -/
theorem last_user_message_behavior_witness :
    (∃ e, Nodes.get_last_user_message [⟨Role.assistant, "b"⟩]
        = Except.error e)
      ∧ ∃ out,
          ApiWrapper.run_chat emptyStore lenReranker constLLM
              [⟨Role.user, "a"⟩, ⟨Role.assistant, "b"⟩] 4 true
            = Except.ok out
          ∧ ∃ n, out.snd.head? = some (Event.vectorSearch "b" n) := by
  constructor
  · exact last_user_message_behavior.2.1 [⟨Role.assistant, "b"⟩] (by decide)
  · obtain ⟨out, hout, n, hn⟩ := last_user_message_behavior.2.2.1 emptyStore
      lenReranker constLLM [⟨Role.user, "a"⟩, ⟨Role.assistant, "b"⟩]
      (by decide) 4 true
    exact ⟨out, hout, n, hn⟩

/-- C7: when retrieval returns zero documents, `agent_node` produces the
fixed no-results assistant message with an empty retrieved-chunks list,
and `rag_answer` returns the fixed no-results string; in both cases the
LLM is never invoked on that turn. -/
theorem zero_docs_short_circuit (vs : Chroma) (reranker : Reranker)
    (llm : LLM) :
    (∀ (state : ChatState) (m : Msg),
        Nodes.get_last_user_message state.messages = Except.ok m →
        (retrieve_documents m.content vs reranker 4 true none).fst = [] →
        Nodes.agent_node vs reranker llm state
            = Except.ok
                ({ messages :=
                     state.messages ++ [⟨Role.assistant, noResultsAnswer⟩],
                   last_retrieved := [] },
                 (retrieve_documents m.content vs reranker 4 true none).snd)
          ∧ ∀ p, Event.llmInvoke p
              ∉ (retrieve_documents m.content vs reranker 4 true none).snd)
  ∧ (∀ (q : String) (k : Int) (ur : Bool),
        (retrieve_documents q vs reranker k ur none).fst = [] →
        (rag_answer q vs reranker k ur llm).fst = noResultsAnswer
          ∧ ∀ p, Event.llmInvoke p
              ∉ (rag_answer q vs reranker k ur llm).snd) := by
  constructor
  · intro state m hm hdocs
    refine ⟨?_, fun p => llmInvoke_not_mem_retrieve_trace _ _ _ _ _ _ p⟩
    unfold Nodes.agent_node
    rw [hm]
    simp [hdocs]
  · intro q k ur hdocs
    constructor
    · unfold rag_answer
      simp [hdocs]
    · intro p
      unfold rag_answer
      simp only [hdocs, List.isEmpty_nil, if_true]
      exact llmInvoke_not_mem_retrieve_trace _ _ _ _ _ _ p

/-- C7 witness: a turn over an empty store. -/
theorem zero_docs_short_circuit_witness :
    Nodes.agent_node emptyStore lenReranker constLLM ⟨[⟨Role.user, "x"⟩], []⟩
        = Except.ok
            ({ messages := [⟨Role.user, "x"⟩, ⟨Role.assistant, noResultsAnswer⟩],
               last_retrieved := [] },
             (retrieve_documents "x" emptyStore lenReranker 4 true none).snd)
      ∧ (rag_answer "x" emptyStore lenReranker 4 true constLLM).fst
          = noResultsAnswer := by
  constructor
  · exact ((zero_docs_short_circuit emptyStore lenReranker constLLM).1
      ⟨[⟨Role.user, "x"⟩], []⟩ ⟨Role.user, "x"⟩ rfl rfl).1
  · exact ((zero_docs_short_circuit emptyStore lenReranker constLLM).2
      "x" 4 true rfl).1

/-- C9: for every nonempty history, the stateless `run_chat` entry point
succeeds and its returned `messages` field is exactly the input history
with one new assistant message appended at the end; being a pure function
of its arguments, it touches no session snapshot and leaves the input
history unchanged. -/
theorem run_chat_appends_one_assistant (vs : Chroma) (reranker : Reranker)
    (llm : LLM) (messages : List Msg) (k : Int) (ur : Bool)
    (h : messages ≠ []) :
    ∃ out, ApiWrapper.run_chat vs reranker llm messages k ur = Except.ok out
      ∧ out.fst.messages
          = messages ++ [⟨Role.assistant, out.fst.answer⟩] := by
  unfold ApiWrapper.run_chat ApiWrapper.get_last_user_message
  rw [List.getLast?_eq_getLast messages h]
  exact ⟨_, rfl, rfl⟩

/-- C9 witness: a one-message history. -/
theorem run_chat_appends_one_assistant_witness :
    ([⟨Role.user, "a"⟩] : List Msg) ≠ []
      ∧ ∃ out,
          ApiWrapper.run_chat store9 lenReranker constLLM
              [⟨Role.user, "a"⟩] 2 true
            = Except.ok out
          ∧ out.fst.messages
              = [⟨Role.user, "a"⟩] ++ [⟨Role.assistant, out.fst.answer⟩] :=
  ⟨by decide,
    run_chat_appends_one_assistant store9 lenReranker constLLM
      [⟨Role.user, "a"⟩] 2 true (by decide)⟩

/-- C8: the ingestion load-and-convert step fails exactly when the
combined-text column is absent; otherwise it drops every row whose
combined-text cell is null, fills other null cells with the empty
string, and yields one document per surviving row, in order, whose
`row_index` metadata equals the row's position in the surviving
sequence and whose content is the combined-text cell coerced to text. -/
theorem load_and_convert_spec (df : DataFrame)
    (hwf : ∀ row ∈ df.rows, row.length = df.columns.length) :
    (COMBINED_TEXT_COLUMN ∉ df.columns →
        loadAndConvert df
          = Except.error
              ("Expected column " ++ COMBINED_TEXT_COLUMN ++ " not found"))
  ∧ (COMBINED_TEXT_COLUMN ∈ df.columns →
      ∃ docs, loadAndConvert df = Except.ok docs
        ∧ docs.length = (df.rows.filter (keepRow df.columns)).length
        ∧ ∀ j, j < docs.length →
            (docs.getD j dummyDoc).page_content
                = (getCell df.columns
                    ((df.rows.filter (keepRow df.columns)).getD j [])
                    COMBINED_TEXT_COLUMN).toStr
              ∧ (docs.getD j dummyDoc).metadata.lookup "row_index"
                  = some (Scalar.i j)
              ∧ ∀ col ∈ df.columns, ¬ col = "row_index" →
                  ¬ col = COMBINED_TEXT_COLUMN →
                  (docs.getD j dummyDoc).metadata.lookup col
                    = some (fillCell (getCell df.columns
                        ((df.rows.filter (keepRow df.columns)).getD j [])
                        col))) := by
  constructor
  · intro habs
    unfold loadAndConvert load_dataframe
    rw [if_neg habs]
    rfl
  · intro hmem
    have hsome : ∀ row ∈ (df.rows.filter (keepRow df.columns)).map fillRow,
        ∃ v, (df.columns.zip row).lookup COMBINED_TEXT_COLUMN = some v := by
      intro row hrow
      obtain ⟨orig, horig, hfe⟩ := List.mem_map.mp hrow
      subst hfe
      have h1 : orig ∈ df.rows := List.mem_of_mem_filter horig
      have h2 : (fillRow orig).length = df.columns.length := by
        simpa [fillRow] using hwf orig h1
      exact lookup_zip_of_mem hmem h2
    obtain ⟨docs, hdocs, hlen, hspec⟩ :=
      rowsToDocs_spec df.columns
        ((df.rows.filter (keepRow df.columns)).map fillRow) 0 hsome
    have hlenF : docs.length = (df.rows.filter (keepRow df.columns)).length := by
      rw [hlen, List.length_map]
    refine ⟨docs, ?_, hlenF, ?_⟩
    · unfold loadAndConvert load_dataframe
      rw [if_pos hmem]
      exact hdocs
    · intro j hj
      have hjF : j < (df.rows.filter (keepRow df.columns)).length := by omega
      have hjM : j < ((df.rows.filter (keepRow df.columns)).map fillRow).length := by
        rw [List.length_map]; exact hjF
      obtain ⟨h1, h2, h3⟩ := hspec j hjM
      have hgetD : ((df.rows.filter (keepRow df.columns)).map fillRow).getD j []
          = fillRow ((df.rows.filter (keepRow df.columns)).getD j []) :=
        getD_map_fillRow _ j hjF
      have hmemF : (df.rows.filter (keepRow df.columns)).getD j [] ∈
          df.rows.filter (keepRow df.columns) := getD_mem_of_lt hjF
      have horig : (df.rows.filter (keepRow df.columns)).getD j [] ∈ df.rows :=
        List.mem_of_mem_filter hmemF
      have hkeep : keepRow df.columns
          ((df.rows.filter (keepRow df.columns)).getD j []) = true :=
        List.of_mem_filter hmemF
      have hrowlen : ((df.rows.filter (keepRow df.columns)).getD j []).length
          = df.columns.length := hwf _ horig
      obtain ⟨v, hv⟩ := lookup_zip_of_mem (c := COMBINED_TEXT_COLUMN) hmem hrowlen
      have hgv : getCell df.columns
          ((df.rows.filter (keepRow df.columns)).getD j [])
          COMBINED_TEXT_COLUMN = v := by
        simp only [getCell]
        rw [hv]
        rfl
      refine ⟨?_, ?_, ?_⟩
      · rw [h1, hgetD]
        congr 1
        simp only [getCell]
        rw [lookup_zip_fill, hv]
        cases v with
        | null =>
          exfalso
          rw [keepRow, hgv] at hkeep
          simp at hkeep
        | s w => rfl
        | i n => rfl
      · simpa using h2
      · intro col hcolmem hcol1 hcol2
        rw [h3 col hcol1 hcol2, hgetD, lookup_zip_fill]
        obtain ⟨w, hw⟩ := lookup_zip_of_mem (c := col) hcolmem hrowlen
        rw [hw]
        simp only [getCell]
        rw [hw]
        rfl

/-- C8 witness: the concrete three-row dataframe (a null combined-text
row that is dropped and null metadata cells that are filled). -/
theorem load_and_convert_spec_witness :
    (∀ row ∈ sampleDF.rows, row.length = sampleDF.columns.length)
      ∧ COMBINED_TEXT_COLUMN ∈ sampleDF.columns
      ∧ ∃ docs, loadAndConvert sampleDF = Except.ok docs
          ∧ docs.length
              = (sampleDF.rows.filter (keepRow sampleDF.columns)).length := by
  refine ⟨by decide, by decide, ?_⟩
  obtain ⟨docs, hok, hlen, hspec⟩ :=
    (load_and_convert_spec sampleDF (by decide)).2 (by decide)
  exact ⟨docs, hok, hlen⟩

/-- C10: `run_chat_langgraph_stateless` never returns a result: when the
LangGraph import failed the guard raises `RuntimeError`, and when it
succeeded the body references the global name `_lg_run_stateless`,
which is not among the module's globals (the import bound
`_lg_run_chat_stateless`), so the call raises `NameError`. -/
theorem run_chat_lg_stateless_never_returns
    (lgRunStateless : List Msg → ChatResult) (messages : List Msg) :
    ApiWrapperLg.run_chat_langgraph_stateless true lgRunStateless messages
        = Except.error (ApiWrapperLg.LgError.nameError "_lg_run_stateless")
      ∧ ApiWrapperLg.run_chat_langgraph_stateless false lgRunStateless messages
        = Except.error (ApiWrapperLg.LgError.runtimeError
            "LangGraph-based functions are not available")
      ∧ "_lg_run_chat_stateless" ∈ ApiWrapperLg.moduleGlobals true
      ∧ "_lg_run_stateless" ∉ ApiWrapperLg.moduleGlobals true := by
  refine ⟨?_, rfl, by decide, by decide⟩
  unfold ApiWrapperLg.run_chat_langgraph_stateless
  rw [if_neg (by decide), if_neg (by decide)]

/-- C10 witness: a concrete call in the import-succeeded configuration
raises the `NameError`. -/
theorem run_chat_lg_stateless_never_returns_witness :
    ApiWrapperLg.run_chat_langgraph_stateless true (fun _ => ⟨"", [], []⟩) []
      = Except.error (ApiWrapperLg.LgError.nameError "_lg_run_stateless") :=
  (run_chat_lg_stateless_never_returns (fun _ => ⟨"", [], []⟩) []).1

/-- C2 witness: concrete stage-1 request sizes at `k = 3`. -/
theorem stage1_candidate_count_witness :
    (retrieve_documents "q" store9 lenReranker 3 false none).snd
        = [Event.vectorSearch "q" 3]
      ∧ ((retrieve_documents "q" store9 lenReranker 3 true none).snd).head?
        = some (Event.vectorSearch "q" (max (3 * 4) (3 + 8))) :=
  stage1_candidate_count "q" store9 lenReranker 3 none

end Rag
